import Mathlib

/-!
Shallow embedding of the ESP-Reveiver event-bus core
(`src/main/eventbus/EventBus.h`, `src/main/eventbus/TinyEventBus.h`,
`src/main/eventbus/FlowGraph.h`, `src/main/eventbus/EventProtocol.h`).

Pointers are modelled as `Option Nat` (a numeric identity for a non-null
pointer, `none` for `nullptr`).  Cleanup function pointers are modelled the
same way.  The FreeRTOS queue created by `xQueueCreate(len, sizeof(Event))`
copies events *bytewise* (`memcpy`), so enqueue and dequeue reproduce the
stored field values verbatim — they do not run the C++ copy constructor.
Release ("cleanup") executions are made observable as a log of
(cleanup-function id, payload id) pairs.
-/

namespace ESPBus

/-- `struct Event` of `EventBus.h`: topic id, inline scalar, payload pointer,
cleanup function pointer, auto-cleanup flag. -/
structure Event where
  type : Nat
  i32 : Int
  ptr : Option Nat
  cleanup : Option Nat
  auto_cleanup : Bool
  deriving Repr, DecidableEq

/-- Default constructor `Event()` : all zero/null, `auto_cleanup = true`. -/
def Event.default : Event := ⟨0, 0, none, none, true⟩

/-- A single release execution: which cleanup function ran on which payload. -/
abbrev Release := Nat × Nat

/-- The destructor `~Event()`: runs `cleanup(ptr)` iff
`auto_cleanup && cleanup && ptr`.  Returns the list of releases performed. -/
def eventDestruct (e : Event) : List Release :=
  if e.auto_cleanup then
    match e.cleanup, e.ptr with
    | some c, some p => [(c, p)]
    | _, _ => []
  else []

/-- The copy constructor `Event(const Event&)`: copies every field, then
clears the *source*'s `ptr` and `cleanup` (through `const_cast`)
to transfer payload ownership.  Returns (the new event, the source after
the copy). -/
def eventCopy (other : Event) : Event × Event :=
  (⟨other.type, other.i32, other.ptr, other.cleanup, other.auto_cleanup⟩,
   { other with ptr := none, cleanup := none })

/-- `Event::manual_cleanup()`: runs `cleanup(ptr)` when both are set and
nulls `ptr`.  Returns the mutated event and the releases performed. -/
def manualCleanup (e : Event) : Event × List Release :=
  match e.cleanup, e.ptr with
  | some c, some p => ({ e with ptr := none }, [(c, p)])
  | _, _ => (e, [])

/-- `Event::operator=`: releases the destination's current payload when its
auto-cleanup is on, copies all fields, clears the source's `ptr`/`cleanup`.
Returns (new destination, source after transfer, releases performed). -/
def eventAssign (dst src : Event) : Event × Event × List Release :=
  let rel :=
    if dst.auto_cleanup then
      match dst.cleanup, dst.ptr with
      | some c, some p => [(c, p)]
      | _, _ => []
    else []
  (⟨src.type, src.i32, src.ptr, src.cleanup, src.auto_cleanup⟩,
   { src with ptr := none, cleanup := none }, rel)

/-! ## The dispatch queue (`TinyEventBus`, FreeRTOS queue of `Event`). -/

/-- `EBUS_DISPATCH_QUEUE_LEN` (default in `TinyEventBus.h`). -/
def EBUS_DISPATCH_QUEUE_LEN : Nat := 32

/-- `xQueueSend(q, &e, 0)` on a queue of capacity `EBUS_DISPATCH_QUEUE_LEN`:
bytewise-copies `e` to the back when there is room.  Returns the new
contents and whether the send succeeded (`pdTRUE` vs `errQUEUE_FULL`).
The front of the list is the oldest element. -/
def xQueueSend (q : List Event) (e : Event) : List Event × Bool :=
  if q.length < EBUS_DISPATCH_QUEUE_LEN then (q ++ [e], true) else (q, false)

/-- `TinyEventBus::dropOldestEvent` (and its ISR twin): receive the oldest
event into a local `Event`; at the end of the function the local's
destructor runs.  Returns the remaining queue and the releases performed. -/
def dropOldestEvent (q : List Event) : List Event × List Release :=
  match q with
  | [] => ([], [])
  | old :: rest => (rest, eventDestruct old)

/-- `TinyEventBus::publishToQueue` acting on the queue handle
(`none` models `q_ == nullptr`): non-blocking send; on `errQUEUE_FULL`
drop the oldest (running its release) and retry once.
Returns the new handle state and the releases performed during the call. -/
def publishToQueue (st : Option (List Event)) (e : Event) :
    Option (List Event) × List Release :=
  match st with
  | none => (none, [])
  | some q =>
    let (q1, ok) := xQueueSend q e
    if ok then (some q1, [])
    else
      let (q2, rel) := dropOldestEvent q1
      let (q3, _) := xQueueSend q2 e
      (some q3, rel)

/-- `TinyEventBus::publishFromISR`: identical queue behaviour
(`xQueueSendFromISR` / `dropOldestEventFromISR`); the higher-priority-woken
hint does not affect the queue contents. -/
def publishFromISR (st : Option (List Event)) (e : Event) :
    Option (List Event) × List Release :=
  match st with
  | none => (none, [])
  | some q =>
    let (q1, ok) := xQueueSend q e
    if ok then (some q1, [])
    else
      let (q2, rel) := dropOldestEvent q1
      let (q3, _) := xQueueSend q2 e
      (some q3, rel)

/-- Folding `publishToQueue` over a list of events (no intervening
dequeue), accumulating the release log. -/
def enqueueAll (st : Option (List Event)) (es : List Event) :
    Option (List Event) × List Release :=
  match es with
  | [] => (st, [])
  | e :: rest =>
    let (st1, rel1) := publishToQueue st e
    let (st2, rel2) := enqueueAll st1 rest
    (st2, rel1 ++ rel2)

/-! ## The subscription registry (`TinyEventBus::Node`, `subscribe`,
`unsubscribe`, `publish`). -/

/-- `EBUS_MAX_LISTENERS` (default in `TinyEventBus.h`). -/
def EBUS_MAX_LISTENERS : Nat := 8

/-- `TinyEventBus::Node`.  The handler function pointer is modelled by its
presence (`hasHandler`, i.e. `h != nullptr`); the predicate together with
its `predUser` is modelled as an optional boolean function of the event. -/
structure Node where
  inUse : Bool
  hasHandler : Bool
  mask : Nat
  pred : Option (Event → Bool)

/-- A cleared slot (`ls_[h] = {}` / the default `Node`). -/
def emptyNode : Node := ⟨false, false, 0xFFFFFFFF, none⟩

/-- The per-slot test of `TinyEventBus::publish`'s loop body:
`b = (e.type < 32) ? (1u << e.type) : 0u`; skip when not in use or the
handler is null; skip when `b && !(mask & b)`; skip when the predicate is
present and returns false. -/
def nodeMatches (e : Event) (n : Node) : Bool :=
  let b : Nat := if e.type < 32 then (1 <<< e.type) else 0
  n.inUse && n.hasHandler &&
  (!(b != 0 && n.mask &&& b == 0)) &&
  (match n.pred with
   | none => true
   | some p => p e)

/-- `TinyEventBus::publish`: fan out over slots `0..` in index order;
returns the indices of the slots whose handlers are invoked, in
invocation order. -/
def publishInvoked (e : Event) (ls : List Node) : List Nat :=
  (List.range ls.length).filter (fun i => nodeMatches e (ls.getD i emptyNode))

/-- `TinyEventBus::subscribe`: take the first slot not in use, store
`{true, handler, user, mask, pred, predUser}` there and return its index;
return `-1` when every slot is in use. -/
def subscribe (ls : List Node) (hasH : Bool) (mask : Nat)
    (pred : Option (Event → Bool)) : List Node × Int :=
  match (List.range ls.length).find? (fun i => !(ls.getD i emptyNode).inUse) with
  | some i => (ls.set i ⟨true, hasH, mask, pred⟩, (i : Int))
  | none => (ls, -1)

/-- `TinyEventBus::unsubscribe`: clear the slot when the handle is in range. -/
def unsubscribe (ls : List Node) (h : Int) : List Node :=
  if 0 ≤ h ∧ h < (EBUS_MAX_LISTENERS : Int) then ls.set h.toNat emptyNode else ls

/-- The empty registry: `Node ls_[EBUS_MAX_LISTENERS]`, all default. -/
def emptyRegistry : List Node := List.replicate EBUS_MAX_LISTENERS emptyNode

/-! ## The dispatcher task and the caller-side queue path. -/

/-- One iteration of `TinyEventBus::dispatch`: `Event e;` then
`xQueueReceive(q_, &e, portMAX_DELAY)` (a bytewise copy of the oldest
element), then `publish(e)`, then the local `e`'s destructor at the end of
the iteration.  Modelled on a non-empty queue (on an empty queue the
receive blocks).  Returns the remaining queue, the slots invoked by the
fan-out, and the releases run by the local event's destructor. -/
def dispatchOnce (ls : List Node) (q : List Event) :
    List Event × List Nat × List Release :=
  match q with
  | [] => ([], [], [])
  | e :: rest => (rest, publishInvoked e ls, eventDestruct e)

/-- The complete queue path for one caller-owned event `e`:
the caller calls `publishToQueue(e)` (which bytewise-copies `e` into the
queue and leaves the caller's object untouched), the dispatcher receives
and fans out the copy and destructs it, and the caller's own `e` is
destructed when it goes out of scope.  Returns every release that runs. -/
def queuePathReleases (ls : List Node) (e : Event) : List Release :=
  let (st1, relSend) := publishToQueue (some []) e
  let (_, _, relDisp) := dispatchOnce ls (st1.getD [])
  relSend ++ relDisp ++ eventDestruct e

/-! ## `EventProtocol.h` -/

/-- `TOPIC__ASYNC_RESULT = 31`: the reserved internal topic for async
continuation routing. -/
def TOPIC_ASYNC_RESULT : Nat := 31

/-- `constexpr uint32_t bit(uint16_t topic)`. -/
def bit (topic : Nat) : Nat := if topic < 32 then (1 <<< topic) else 0

/-! ## `FlowGraph.h`: the flow combinators.

A `Flow` is `std::function<void(const Event&, IEventBus&)>`.  The
combinators are embedded as a syntax tree whose leaves carry the (pure,
collaborator-supplied) predicates and constants; `runFlow` gives their
semantics.  Because the C++ `Event` copy constructor mutates its source
through `const_cast`, invoking a flow can change the triggering event, so
`runFlow` returns the trigger's state after the call together with the
observable effects of the call. -/

inductive FlowE where
  | publishF : Nat → Int → Option Nat → FlowE
  | seqF : FlowE → FlowE → FlowE
  | filterF : (Event → Bool) → FlowE → FlowE
  | branchF : (Event → Bool) → FlowE → FlowE → FlowE
  | tapF : FlowE
  | asyncBlockingF : FlowE → FlowE → FlowE
  | asyncWithEventF : FlowE → FlowE → FlowE

/-- `FlowGraph::tee(a, b)` is literally `seq(a, b)` in the source. -/
def teeF (a b : FlowE) : FlowE := FlowE.seqF a b

/-- What a single flow invocation can be observed to do. -/
inductive FlowEffect where
  | published : Event → FlowEffect
  | tapped : Event → FlowEffect
  | spawned : Bool → Event → Option Event → FlowEffect

/-- Semantics of one flow invocation on trigger `e`.  Returns the trigger's
state after the call and the effects, in order:
* `publish(topic, i32, ptr)` publishes `Event{topic, i32, ptr}` (default
  null cleanup) and ignores the trigger;
* `seq(a, b)` runs `a(e)` then `b(e)` on the same event object, so `b`
  sees any mutation `a` made;
* `filter(pred, then)` runs `then(e)` iff `pred(e)`;
* `branch(pred, onT, onF)` evaluates `pred(e)` once and runs one branch;
* `tap(fn)` only observes `e`;
* `async_blocking` copy-constructs the trigger into a fresh `AsyncCtx`
  (`new AsyncCtx{onOk, onErr, trigger, fg}`), which clears the trigger's
  `ptr`/`cleanup`, then spawns the worker task;
* `async_blocking_with_event` does the same and then also copy-constructs
  the (already cleared) trigger into the `TaskPackWithEvent`. -/
def runFlow : FlowE → Event → Event × List FlowEffect
  | .publishF t i p, e => (e, [.published ⟨t, i, p, none, true⟩])
  | .seqF a b, e =>
    let (e1, f1) := runFlow a e
    let (e2, f2) := runFlow b e1
    (e2, f1 ++ f2)
  | .filterF p thenF, e => if p e then runFlow thenF e else (e, [])
  | .branchF p onT onF, e => if p e then runFlow onT e else runFlow onF e
  | .tapF, e => (e, [.tapped e])
  | .asyncBlockingF _ _, e =>
    let (orig, e1) := eventCopy e
    (e1, [.spawned false orig none])
  | .asyncWithEventF _ _, e =>
    let (orig, e1) := eventCopy e
    let (packEvt, e2) := eventCopy e1
    (e2, [.spawned true orig (some packEvt)])

/-- A flow built only from `publish`, `seq`/`tee`, `filter`, `branch` and
`tap` (no async spawn). -/
def pureFlow : FlowE → Bool
  | .publishF _ _ _ => true
  | .seqF a b => pureFlow a && pureFlow b
  | .filterF _ thenF => pureFlow thenF
  | .branchF _ onT onF => pureFlow onT && pureFlow onF
  | .tapF => true
  | .asyncBlockingF _ _ => false
  | .asyncWithEventF _ _ => false

/-! ## `FlowGraph.h`: the async continuation machinery. -/

/-- Which continuation branch an invocation took. -/
inductive Branch where
  | ok
  | err
  deriving Repr, DecidableEq

/-- The task context a piece of code executes in. -/
inductive TaskCtx where
  | dispatcher
  | worker
  | app
  deriving Repr, DecidableEq

/-- `FlowGraph::AsyncCtx`: the two continuation flows and the saved copy of
the original trigger (the `fg` back-pointer is implicit). -/
structure AsyncCtx where
  onOk : FlowE
  onErr : FlowE
  original : Event

/-- `FlowGraph::ResultPack`: the worker's output pointer and the
`AsyncCtx` (a pointer in the source, held by value here). -/
structure ResultPack where
  userPayload : Option Nat
  ctx : AsyncCtx

/-- `FlowGraph::asyncRouterHandler`: build the shadow event by
copy-constructing the saved trigger (`Event shadow = ctx->original`),
overwrite its payload pointer with the worker's output
(`shadow.ptr = pack->userPayload`), then invoke `onOk` when `e.i32 == 1`
and `onErr` otherwise.  Returns the continuation invocations the handler
performs, as (branch, shadow event) pairs. -/
def asyncRouterHandler (e : Event) (pack : ResultPack) : List (Branch × Event) :=
  let (shadow0, _) := eventCopy pack.ctx.original
  let shadow := { shadow0 with ptr := pack.userPayload }
  if e.i32 == 1 then [(Branch.ok, shadow)] else [(Branch.err, shadow)]

/-- The registry right after `FlowGraph`'s constructor:
`subscribe(&asyncRouterHandler, this, bit(TOPIC__ASYNC_RESULT))` on a fresh
bus — the router sits in slot 0 with mask `bit(31)` and no predicate. -/
def flowGraphRegistry : List Node :=
  (subscribe emptyRegistry true (bit TOPIC_ASYNC_RESULT) none).1

/-- The result event the worker task posts:
`Event r{TOPIC__ASYNC_RESULT, ok ? 1 : 0, new ResultPack{...}}` (the
payload pointer is the fresh `ResultPack` allocation; its identity is
irrelevant to filtering, `0` stands for it). -/
def workerResultEvent (ok : Bool) : Event :=
  ⟨TOPIC_ASYNC_RESULT, if ok then 1 else 0, some 0, none, true⟩

/-- The full async round trip of `async_blocking` for one trigger:
the flow invocation copy-constructs the trigger into a fresh `AsyncCtx`;
the worker task runs the user worker, getting `ok` and `payload`, and then
calls `bus_.publish(r)` — a direct, synchronous fan-out executed on the
worker task itself.  Every slot of the FlowGraph's registry matching `r`
(only the router) runs its handler once, in the publishing task's context;
the router invokes the chosen continuation there.  Returns the
continuation invocations tagged with the task context they execute in. -/
def asyncRoundTrip (onOk onErr : FlowE) (trigger : Event) (ok : Bool)
    (payload : Option Nat) : List (TaskCtx × Branch × Event) :=
  let (orig, _) := eventCopy trigger
  let ctx : AsyncCtx := ⟨onOk, onErr, orig⟩
  let r := workerResultEvent ok
  let pack : ResultPack := ⟨payload, ctx⟩
  (publishInvoked r flowGraphRegistry).flatMap
    (fun _ => (asyncRouterHandler r pack).map (fun bi => (TaskCtx.worker, bi)))

/-- The spawn site of `async_blocking_with_event`: the statement
`auto* ctx = new AsyncCtx{onOk, onErr, trigger, ...}` copy-constructs the
trigger into the context first (transferring payload ownership and
clearing the trigger), and only then does
`new TaskPackWithEvent{workerFn, ctx, trigger}` copy-construct the
already-cleared trigger into the task pack.  The worker receives
`p->trigger_event`, the task-pack copy.  Returns (the context's saved
copy, the task-pack copy handed to the worker, the trigger afterwards). -/
def spawnWithEvent (trigger : Event) : Event × Event × Event :=
  let (orig, t1) := eventCopy trigger
  let (packEvt, t2) := eventCopy t1
  (orig, packEvt, t2)

/-! ## Helper lemmas -/

/-- For any result event published on `TOPIC__ASYNC_RESULT` with `ok = true`,
exactly slot 0 (the FlowGraph's router) matches in the fresh registry. -/
theorem routerInvoked_ok :
    publishInvoked (workerResultEvent true) flowGraphRegistry = [0] := by
  decide

/-- Same as `routerInvoked_ok` for `ok = false`. -/
theorem routerInvoked_err :
    publishInvoked (workerResultEvent false) flowGraphRegistry = [0] := by
  decide

/-- A flow with no async node never changes its triggering event. -/
theorem runFlow_pure_frame (f : FlowE) : pureFlow f = true → ∀ e, (runFlow f e).1 = e := by
  induction f with
  | publishF t i p => intro _ e; rfl
  | seqF a b iha ihb =>
    intro hf e
    simp only [pureFlow, Bool.and_eq_true] at hf
    simp [runFlow, iha hf.1, ihb hf.2]
  | filterF p thenF ih =>
    intro hf e
    simp only [pureFlow] at hf
    by_cases hp : p e <;> simp [runFlow, hp, ih hf]
  | branchF p onT onF ihT ihF =>
    intro hf e
    simp only [pureFlow, Bool.and_eq_true] at hf
    by_cases hp : p e <;> simp [runFlow, hp, ihT hf.1, ihF hf.2]
  | tapF => intro _ e; rfl
  | asyncBlockingF a b iha ihb => intro hf e; simp [pureFlow] at hf
  | asyncWithEventF a b iha ihb => intro hf e; simp [pureFlow] at hf

/-- `List.find?` over `List.range` returns the least index satisfying the
predicate. -/
theorem find?_range_eq_some (p : Nat → Bool) (n j : Nat) (hj : j < n) (hpj : p j = true)
    (hmin : ∀ k < j, p k = false) : (List.range n).find? p = some j := by
  have hn : n = j + (n - j) := by omega
  rw [hn, List.range_add, List.find?_append]
  have h1 : (List.range j).find? p = none := by
    rw [List.find?_eq_none]
    intro x hx
    simp only [List.mem_range] at hx
    simp [hmin x hx]
  rw [h1]
  have h2 : n - j = (n - j - 1) + 1 := by omega
  rw [h2, List.range_succ_eq_map]
  simp [List.find?_cons_of_pos, hpj]

/-- A non-full queue accepts the event directly, releasing nothing. -/
theorem publishToQueue_notFull (q : List Event) (e : Event)
    (h : q.length < EBUS_DISPATCH_QUEUE_LEN) :
    publishToQueue (some q) e = (some (q ++ [e]), []) := by
  simp [publishToQueue, xQueueSend, h]

/-- A full queue drops its oldest event, running exactly that event's
release, and then accepts the new event. -/
theorem publishToQueue_full (q : List Event) (e : Event)
    (h : q.length = EBUS_DISPATCH_QUEUE_LEN) :
    publishToQueue (some q) e
      = (some (q.tail ++ [e]), eventDestruct (q.headD Event.default)) := by
  cases q with
  | nil => simp [EBUS_DISPATCH_QUEUE_LEN] at h
  | cons x t =>
    have ht : t.length = 31 := by
      simpa [EBUS_DISPATCH_QUEUE_LEN] using h
    simp [publishToQueue, xQueueSend, dropOldestEvent, ht, EBUS_DISPATCH_QUEUE_LEN]

/-- Folding enqueues over any initial queue keeps the newest
`EBUS_DISPATCH_QUEUE_LEN` events and releases the dropped prefix in order. -/
theorem enqueueAll_general (es : List Event) : ∀ (q : List Event),
    q.length ≤ EBUS_DISPATCH_QUEUE_LEN →
    enqueueAll (some q) es =
      (some ((q ++ es).drop (q.length + es.length - EBUS_DISPATCH_QUEUE_LEN)),
       ((q ++ es).take (q.length + es.length - EBUS_DISPATCH_QUEUE_LEN)).flatMap eventDestruct) := by
  induction es with
  | nil =>
    intro q hq
    simp only [enqueueAll, List.append_nil, List.length_nil, Nat.add_zero]
    have h0 : q.length - EBUS_DISPATCH_QUEUE_LEN = 0 := by omega
    simp [h0]
  | cons e rest ih =>
    intro q hq
    rcases Nat.lt_or_eq_of_le hq with hlt | heq
    · have hstep := publishToQueue_notFull q e hlt
      have hlen : (q ++ [e]).length ≤ EBUS_DISPATCH_QUEUE_LEN := by
        simp; omega
      calc enqueueAll (some q) (e :: rest)
          = ((enqueueAll (some (q ++ [e])) rest).1,
             [] ++ (enqueueAll (some (q ++ [e])) rest).2) := by
            show (let (st1, rel1) := publishToQueue (some q) e
                  let (st2, rel2) := enqueueAll st1 rest
                  (st2, rel1 ++ rel2)) = _
            rw [hstep]
        _ = (some ((q ++ (e :: rest)).drop (q.length + (e :: rest).length - EBUS_DISPATCH_QUEUE_LEN)),
             ((q ++ (e :: rest)).take (q.length + (e :: rest).length - EBUS_DISPATCH_QUEUE_LEN)).flatMap
               eventDestruct) := by
            rw [ih (q ++ [e]) hlen]
            simp [List.append_assoc]
            have h4 : q.length + 1 + rest.length = q.length + (rest.length + 1) := by omega
            rw [h4]
            exact ⟨rfl, rfl⟩
    · cases q with
      | nil => simp [EBUS_DISPATCH_QUEUE_LEN] at heq
      | cons x t =>
        have ht : t.length = 31 := by simpa [EBUS_DISPATCH_QUEUE_LEN] using heq
        have hstep := publishToQueue_full (x :: t) e heq
        have hlen : (t ++ [e]).length ≤ EBUS_DISPATCH_QUEUE_LEN := by
          simp [ht, EBUS_DISPATCH_QUEUE_LEN]
        calc enqueueAll (some (x :: t)) (e :: rest)
            = ((enqueueAll (some (t ++ [e])) rest).1,
               eventDestruct x ++ (enqueueAll (some (t ++ [e])) rest).2) := by
              show (let (st1, rel1) := publishToQueue (some (x :: t)) e
                    let (st2, rel2) := enqueueAll st1 rest
                    (st2, rel1 ++ rel2)) = _
              rw [hstep]
              rfl
          _ = (some (((x :: t) ++ (e :: rest)).drop
                ((x :: t).length + (e :: rest).length - EBUS_DISPATCH_QUEUE_LEN)),
               (((x :: t) ++ (e :: rest)).take
                ((x :: t).length + (e :: rest).length - EBUS_DISPATCH_QUEUE_LEN)).flatMap
                 eventDestruct) := by
              rw [ih (t ++ [e]) hlen]
              have e1 : (t ++ [e]).length + rest.length - EBUS_DISPATCH_QUEUE_LEN
                  = rest.length := by
                simp [ht, EBUS_DISPATCH_QUEUE_LEN]
              have e2 : (x :: t).length + (e :: rest).length - EBUS_DISPATCH_QUEUE_LEN
                  = rest.length + 1 := by
                simp [ht, EBUS_DISPATCH_QUEUE_LEN]
              rw [e1, e2]
              simp [List.append_assoc]

/-! ## Claim theorems -/

/-- C1: the at-most-once release guarantee fails on the queue path.  The
FreeRTOS queue copies the event bytewise, so the caller's event keeps its
`ptr`/`cleanup` after `publishToQueue`, and the dispatcher's received copy
holds the same fields: for the event `{type 5, i32 0, ptr 7, cleanup 3}`
the release `(3, 7)` runs twice — once in the dispatcher's local
destructor and once in the caller's destructor — instead of exactly
once. -/
theorem queuePath_release_runs_twice :
    queuePathReleases emptyRegistry ⟨5, 0, some 7, some 3, true⟩ = [(3, 7), (3, 7)] := by
  decide

/-- C2: drop-oldest under overflow.  (i) One enqueue into a full queue
dequeues the oldest event, runs exactly its release, and then enqueues the
new event.  (ii) Enqueuing `capacity + k` events into an empty queue with
no intervening dequeue drops exactly the `k` oldest (running each dropped
event's release exactly once, in order) and keeps the `capacity` newest in
FIFO order. -/
theorem dispatchQueue_dropOldest_fifo :
    (∀ (q : List Event) (e : Event), q.length = EBUS_DISPATCH_QUEUE_LEN →
       publishToQueue (some q) e
         = (some (q.tail ++ [e]), eventDestruct (q.headD Event.default))) ∧
    (∀ (es : List Event) (k : Nat), es.length = EBUS_DISPATCH_QUEUE_LEN + k →
       enqueueAll (some []) es = (some (es.drop k), (es.take k).flatMap eventDestruct)) := by
  refine ⟨publishToQueue_full, fun es k h => ?_⟩
  have hg := enqueueAll_general es [] (by simp [EBUS_DISPATCH_QUEUE_LEN])
  simpa [h, EBUS_DISPATCH_QUEUE_LEN] using hg

/-- C2 witness: a full queue of 32 events plus one more, and a 33-event
fold dropping exactly the single oldest event. -/
theorem dispatchQueue_dropOldest_fifo_witness :
    publishToQueue (some (List.replicate 32 (⟨1, 0, some 4, some 9, true⟩ : Event)))
        ⟨2, 5, some 8, some 9, true⟩
      = (some ((List.replicate 32 (⟨1, 0, some 4, some 9, true⟩ : Event)).tail
           ++ [⟨2, 5, some 8, some 9, true⟩]),
         eventDestruct ((List.replicate 32 (⟨1, 0, some 4, some 9, true⟩ : Event)).headD
           Event.default)) ∧
    enqueueAll (some []) (List.replicate 33 (⟨1, 0, some 4, some 9, true⟩ : Event))
      = (some ((List.replicate 33 (⟨1, 0, some 4, some 9, true⟩ : Event)).drop 1),
         ((List.replicate 33 (⟨1, 0, some 4, some 9, true⟩ : Event)).take 1).flatMap
           eventDestruct) :=
  ⟨dispatchQueue_dropOldest_fifo.1 _ _ (by decide),
   dispatchQueue_dropOldest_fifo.2 _ 1 (by decide)⟩

/-- C3 counterexample: the worker task posts its result with a direct
`bus_.publish(r)`, which fans out synchronously in the caller's context,
so the continuation of a concrete async round trip runs in the worker
task's context, not the dispatcher's. -/
theorem asyncContinuation_worker_counterexample :
    (asyncRoundTrip FlowE.tapF FlowE.tapF ⟨0, 0, none, none, true⟩ true none).map Prod.fst
      = [TaskCtx.worker] ∧ TaskCtx.worker ≠ TaskCtx.dispatcher := by
  refine ⟨?_, by decide⟩
  simp [asyncRoundTrip, routerInvoked_ok, asyncRouterHandler, eventCopy,
    show (workerResultEvent true).i32 = 1 from rfl]

/-- C3 (amended): for every async-blocking invocation, `on_ok` / `on_err`
run synchronously on the worker task — the worker publishes the result
event directly rather than through the dispatch queue — never on the
dispatcher thread. -/
theorem asyncContinuation_runs_on_worker (onOk onErr : FlowE) (trigger : Event)
    (ok : Bool) (P : Option Nat) :
    (asyncRoundTrip onOk onErr trigger ok P).map Prod.fst = [TaskCtx.worker] := by
  cases ok
  · simp [asyncRoundTrip, routerInvoked_err, asyncRouterHandler, eventCopy,
      show (workerResultEvent false).i32 = 0 from rfl]
  · simp [asyncRoundTrip, routerInvoked_ok, asyncRouterHandler, eventCopy,
      show (workerResultEvent true).i32 = 1 from rfl]

/-- C4: when the worker returns `ok = true` with output `P`, the `on_ok`
continuation is invoked exactly once, with a shadow event carrying the
saved trigger's topic and inline scalar and exactly `P` as payload, and
`on_err` is not invoked; symmetric for `ok = false`. -/
theorem asyncRoundTrip_exactly_once (onOk onErr : FlowE) (trigger : Event) (P : Option Nat) :
    asyncRoundTrip onOk onErr trigger true P =
      [(TaskCtx.worker, Branch.ok,
        ⟨trigger.type, trigger.i32, P, trigger.cleanup, trigger.auto_cleanup⟩)] ∧
    asyncRoundTrip onOk onErr trigger false P =
      [(TaskCtx.worker, Branch.err,
        ⟨trigger.type, trigger.i32, P, trigger.cleanup, trigger.auto_cleanup⟩)] := by
  constructor
  · simp [asyncRoundTrip, routerInvoked_ok, asyncRouterHandler, eventCopy,
      show (workerResultEvent true).i32 = 1 from rfl]
  · simp [asyncRoundTrip, routerInvoked_err, asyncRouterHandler, eventCopy,
      show (workerResultEvent false).i32 = 0 from rfl]

/-- C5 counterexample: in `async_blocking_with_event` the `AsyncCtx` copy
is constructed before the task pack, and the `Event` copy constructor
clears the source, so the worker's received trigger copy has a null
payload pointer — not the original event's payload `5`. -/
theorem spawnWithEvent_payload_counterexample :
    (spawnWithEvent ⟨7, 42, some 5, some 2, true⟩).2.1.ptr = none ∧
    (⟨7, 42, some 5, some 2, true⟩ : Event).ptr = some 5 ∧
    (none : Option Nat) ≠ some 5 := by
  decide

/-- C5 (amended): the worker of `async_blocking_with_event` receives a
trigger copy carrying the original topic and inline scalar but a *null*
payload and release — the `AsyncCtx` copy took payload ownership first.
The spawn-site trigger is also cleared, and destructing the worker's
copy, the cleared trigger and the context's copy together releases the
payload at most once (exactly as often as destructing the original
would). -/
theorem spawnWithEvent_ownership (trigger : Event) :
    spawnWithEvent trigger =
      (⟨trigger.type, trigger.i32, trigger.ptr, trigger.cleanup, trigger.auto_cleanup⟩,
       ⟨trigger.type, trigger.i32, none, none, trigger.auto_cleanup⟩,
       ⟨trigger.type, trigger.i32, none, none, trigger.auto_cleanup⟩) ∧
    eventDestruct (spawnWithEvent trigger).2.1 ++ eventDestruct (spawnWithEvent trigger).2.2
      ++ eventDestruct (spawnWithEvent trigger).1 = eventDestruct trigger := by
  obtain ⟨t, i, p, c, a⟩ := trigger
  refine ⟨rfl, ?_⟩
  cases a <;> simp [spawnWithEvent, eventCopy, eventDestruct]

/-- C6 counterexample: a subscriber with the non-ALL mask `1` and no
predicate *is* delivered an event with topic 32 — for topics ≥ 32 the code
skips the mask test entirely rather than requiring an ALL mask or a
predicate. -/
theorem topicGe32_mask_ignored_counterexample :
    publishInvoked ⟨32, 0, none, none, true⟩ (subscribe emptyRegistry true 1 none).1 = [0] ∧
    (1 : Nat) ≠ 0xFFFFFFFF := by
  exact ⟨by decide, by decide⟩

/-- C6 (amended): for an event with topic ≥ 32, an in-use subscriber with
a non-null handler is delivered iff its predicate (when present) accepts
the event; the mask is not consulted at all. -/
theorem publish_topicGe32_delivery (e : Event) (ls : List Node) (i : Nat) (n : Node)
    (ht : 32 ≤ e.type) (hi : i < ls.length) (hn : ls.getD i emptyNode = n) :
    (i ∈ publishInvoked e ls) ↔
      (n.inUse && n.hasHandler && (n.pred.getD (fun _ => true)) e) = true := by
  have hb : (if e.type < 32 then ((1 : Nat) <<< e.type) else 0) = 0 := by
    rw [if_neg]; omega
  have hn' : ls[i] = n := by
    rw [List.getD_eq_getElem?_getD, List.getElem?_eq_getElem hi] at hn
    simpa using hn
  rw [publishInvoked, List.mem_filter, List.mem_range]
  simp only [nodeMatches, hb]
  cases hp : n.pred with
  | none => simp [hi, hn', hp]
  | some p => simp [hi, hn', hp]

/-- C6 witness: slot 0 (mask 1, no predicate) receives the topic-32
event. -/
theorem publish_topicGe32_delivery_witness :
    32 ≤ (⟨32, 0, none, none, true⟩ : Event).type ∧
    0 ∈ publishInvoked ⟨32, 0, none, none, true⟩ (subscribe emptyRegistry true 1 none).1 :=
  ⟨by decide,
   (publish_topicGe32_delivery ⟨32, 0, none, none, true⟩
      (subscribe emptyRegistry true 1 none).1 0 ⟨true, true, 1, none⟩
      (by decide) (by decide) rfl).mpr rfl⟩

/-- C7: for an event with topic `t < 32` and an in-use subscriber with a
non-null handler, mask `M` and no predicate, the handler is invoked during
fan-out iff `M & (1 << t) != 0`. -/
theorem publish_mask_filtering (e : Event) (ls : List Node) (i : Nat) (n : Node)
    (ht : e.type < 32) (hi : i < ls.length) (hn : ls.getD i emptyNode = n)
    (hu : n.inUse = true) (hh : n.hasHandler = true) (hp : n.pred = none) :
    (i ∈ publishInvoked e ls) ↔ n.mask &&& ((1 : Nat) <<< e.type) ≠ 0 := by
  have hb0 : ((1 : Nat) <<< e.type) ≠ 0 := by
    rw [Nat.shiftLeft_eq]; positivity
  have hn' : ls[i] = n := by
    rw [List.getD_eq_getElem?_getD, List.getElem?_eq_getElem hi] at hn
    simpa using hn
  rw [publishInvoked, List.mem_filter, List.mem_range]
  simp only [nodeMatches, if_pos ht]
  simp [hi, hn', hu, hh, hp, hb0]

/-- C7 witness: mask 8 = bit(3) delivers topic 3. -/
theorem publish_mask_filtering_witness :
    (⟨3, 0, none, none, true⟩ : Event).type < 32 ∧
    0 ∈ publishInvoked ⟨3, 0, none, none, true⟩ (subscribe emptyRegistry true 8 none).1 :=
  ⟨by decide,
   (publish_mask_filtering ⟨3, 0, none, none, true⟩
      (subscribe emptyRegistry true 8 none).1 0 ⟨true, true, 8, none⟩
      (by decide) (by decide) rfl rfl rfl rfl).mpr (by decide)⟩

/-- C8: (i) `subscribe` assigns the lowest free slot index as the handle;
(ii) fan-out invokes matching slots in strictly increasing slot-index
order; (iii) subscribing A, B, C in order on a fresh bus yields handles
0, 1, 2, and an event matching all three is delivered in exactly the
order A, B, C. -/
theorem fanout_order_and_lowest_slot :
    (∀ (ls : List Node) (hasH : Bool) (mask : Nat) (pred : Option (Event → Bool)) (j : Nat),
       j < ls.length → (ls.getD j emptyNode).inUse = false →
       (∀ k < j, (ls.getD k emptyNode).inUse = true) →
       (subscribe ls hasH mask pred).2 = (j : Int)) ∧
    (∀ (e : Event) (ls : List Node), List.Pairwise (· < ·) (publishInvoked e ls)) ∧
    (∀ (e : Event) (hA hB hC : Bool) (mA mB mC : Nat) (pA pB pC : Option (Event → Bool)),
       nodeMatches e ⟨true, hA, mA, pA⟩ = true →
       nodeMatches e ⟨true, hB, mB, pB⟩ = true →
       nodeMatches e ⟨true, hC, mC, pC⟩ = true →
       (subscribe emptyRegistry hA mA pA).2 = 0 ∧
       (subscribe (subscribe emptyRegistry hA mA pA).1 hB mB pB).2 = 1 ∧
       (subscribe (subscribe (subscribe emptyRegistry hA mA pA).1 hB mB pB).1 hC mC pC).2 = 2 ∧
       publishInvoked e
         (subscribe (subscribe (subscribe emptyRegistry hA mA pA).1 hB mB pB).1 hC mC pC).1
         = [0, 1, 2]) := by
  refine ⟨?_, ?_, ?_⟩
  · intro ls hasH mask pred j hj hfree hmin
    have hfind : (List.range ls.length).find? (fun i => !(ls.getD i emptyNode).inUse)
        = some j := by
      apply find?_range_eq_some _ _ _ hj
      · show (!(ls.getD j emptyNode).inUse) = true
        rw [hfree]; rfl
      · intro k hk
        show (!(ls.getD k emptyNode).inUse) = false
        rw [hmin k hk]; rfl
    simp only [subscribe]
    rw [hfind]
  · intro e ls
    exact (List.pairwise_lt_range ls.length).filter _
  · intro e hA hB hC mA mB mC pA pB pC hmA hmB hmC
    refine ⟨rfl, rfl, rfl, ?_⟩
    have hreg : (subscribe (subscribe (subscribe emptyRegistry hA mA pA).1 hB mB pB).1 hC mC pC).1
        = [⟨true, hA, mA, pA⟩, ⟨true, hB, mB, pB⟩, ⟨true, hC, mC, pC⟩,
           emptyNode, emptyNode, emptyNode, emptyNode, emptyNode] := rfl
    rw [hreg]
    show (List.range 8).filter _ = [0, 1, 2]
    rw [show List.range 8 = [0, 1, 2, 3, 4, 5, 6, 7] from rfl]
    simp [List.filter, hmA, hmB, hmC,
      show ∀ x, nodeMatches x emptyNode = false from fun _ => rfl]

/-- C8 witness: three identical always-matching subscribers on a fresh
bus, plus the lowest-free-slot property at slot 0. -/
theorem fanout_order_and_lowest_slot_witness :
    (subscribe emptyRegistry true 0xFFFFFFFF none).2 = (0 : Int) ∧
    ((subscribe emptyRegistry true 3 none).2 = 0 ∧
     (subscribe (subscribe emptyRegistry true 3 none).1 true 3 none).2 = 1 ∧
     (subscribe (subscribe (subscribe emptyRegistry true 3 none).1 true 3 none).1
        true 3 none).2 = 2 ∧
     publishInvoked ⟨0, 0, none, none, true⟩
       (subscribe (subscribe (subscribe emptyRegistry true 3 none).1 true 3 none).1
          true 3 none).1 = [0, 1, 2]) :=
  ⟨fanout_order_and_lowest_slot.1 emptyRegistry true 0xFFFFFFFF none 0 (by decide) (by decide)
      (fun k hk => absurd hk (Nat.not_lt_zero k)),
   fanout_order_and_lowest_slot.2.2 ⟨0, 0, none, none, true⟩ true true true 3 3 3
      none none none (by decide) (by decide) (by decide)⟩

/-- C9 counterexample: invoking an `async_blocking` flow mutates its
triggering event — the copy into the `AsyncCtx` clears the trigger's
payload pointer and release through `const_cast`. -/
theorem asyncBlocking_mutates_trigger :
    (runFlow (FlowE.asyncBlockingF (FlowE.publishF 2 0 none) (FlowE.publishF 3 0 none))
       ⟨0, 1, some 5, some 4, true⟩).1
      ≠ ⟨0, 1, some 5, some 4, true⟩ := by
  decide

/-- C9 (amended): the combinators `publish`, `seq`/`tee`, `filter`,
`branch` and `tap` leave the triggering event unchanged; the two async
variants preserve its topic and inline scalar but clear its payload
pointer and release (ownership moves into the `AsyncCtx`). -/
theorem flow_trigger_frame (f : FlowE) (e : Event) :
    (pureFlow f = true → (runFlow f e).1 = e) ∧
    (∀ a b, (runFlow (FlowE.asyncBlockingF a b) e).1 = { e with ptr := none, cleanup := none }) ∧
    (∀ a b, (runFlow (FlowE.asyncWithEventF a b) e).1 = { e with ptr := none, cleanup := none }) :=
  ⟨fun h => runFlow_pure_frame f h e, fun _ _ => rfl, fun _ _ => rfl⟩

/-- C9 witness: `tap` is a pure combinator and leaves a concrete event
unchanged. -/
theorem flow_trigger_frame_witness :
    pureFlow FlowE.tapF = true ∧
    (runFlow FlowE.tapF ⟨1, 2, some 3, some 4, true⟩).1 = ⟨1, 2, some 3, some 4, true⟩ :=
  ⟨rfl, (flow_trigger_frame FlowE.tapF ⟨1, 2, some 3, some 4, true⟩).1 rfl⟩

/-- C10: with a null queue handle (`begin` never called or failed), both
queue-publish paths return immediately: the queue state is unchanged
(still null, so nothing is ever dispatched from it) and no release
runs. -/
theorem nullQueue_publish_noop (e : Event) :
    publishToQueue none e = (none, []) ∧ publishFromISR none e = (none, []) :=
  ⟨rfl, rfl⟩

end ESPBus
